import Mathlib

/-!
Verification of the facematcher repository's core numeric and state-handling
logic: the similarity matcher (`matchFace`, `cosineSimilarity`,
`deleteKnownFace` from `face-recognition.service.ts`), the geometry kernel
(`estimateAffineTransform` and the reference landmarks), the inference
worker's LOAD_MODEL state handling (`face-processor.worker.ts`), the
request broker's message handler, the histogram-equalization stage of
`runInference`, and the `toggleColorMode` action of the app component.

JavaScript `number` arithmetic is modelled by exact real (or rational)
arithmetic; integer-valued quantities (timestamps, pixel samples, histogram
counts) are modelled by `ℤ`/`ℕ`.  Where a specific JavaScript coercion
matters (truthiness of a string, `Uint8Array` element conversion) it is
modelled explicitly and noted at the definition site.
-/

namespace FaceMatcher

/-- Gallery entry, from `KnownFace` in `face-recognition.service.ts`:
`{ name, embedding, imageUrl?, timestamp }`. -/
structure KnownFace where
  name : String
  embedding : List ℝ
  imageUrl : Option String
  timestamp : ℤ

/-- Model of `cosineSimilarity(a, b)` from `face-recognition.service.ts`
(lines 123–133).  The source loops `i` from `0` to `a.length - 1`
accumulating `dot += a[i]*b[i]`, `magA += a[i]*a[i]`, `magB += b[i]*b[i]`
and returns `dot / (Math.sqrt(magA) * Math.sqrt(magB) + 1e-6)`.
Out-of-range reads of `b` are modelled as `0` via `getD`. -/
noncomputable def cosineSimilarity (a b : List ℝ) : ℝ :=
  let dot := ∑ i in Finset.range a.length, a.getD i 0 * b.getD i 0
  let magA := ∑ i in Finset.range a.length, a.getD i 0 * a.getD i 0
  let magB := ∑ i in Finset.range a.length, b.getD i 0 * b.getD i 0
  dot / (Real.sqrt magA * Real.sqrt magB + 1e-6)

/-- Score remap applied by `matchFace` above the 0.4 threshold:
`0.8 + ((bestScore - 0.4) / 0.6) * 0.2` (line 111 of the service). -/
noncomputable def mappedScore (s : ℝ) : ℝ :=
  0.8 + ((s - 0.4) / 0.6) * 0.2

/-- Loop body of the scan in `matchFace`: update the accumulator
`(bestScore, bestMatch)` when `score > bestScore` (strict comparison,
lines 100–106 of the service). -/
noncomputable def matchStep (embedding : List ℝ) (acc : ℝ × String)
    (face : KnownFace) : ℝ × String :=
  let score := cosineSimilarity embedding face.embedding
  if acc.1 < score then (score, face.name) else acc

/-- Model of `matchFace(embedding)` from `face-recognition.service.ts`
(lines 93–115), with the gallery passed explicitly.  Returns the pair
`(name, score)`.  The scan starts from `bestScore = -1`,
`bestMatch = 'Unknown'`. -/
noncomputable def matchFace (embedding : List ℝ) (faces : List KnownFace) :
    String × ℝ :=
  if faces.length = 0 then ("Unknown", 0)
  else
    let best := faces.foldl (matchStep embedding) ((-1 : ℝ), "Unknown")
    if 0.4 < best.1 then (best.2, mappedScore best.1)
    else ("Unknown", best.1)

/-- Model of `deleteKnownFace(face)` (lines 117–121 of the service):
`knownFaces().filter(f => f.timestamp !== face.timestamp)`. -/
def deleteKnownFace (faces : List KnownFace) (face : KnownFace) :
    List KnownFace :=
  faces.filter (fun f => f.timestamp ≠ face.timestamp)

open Classical in
/-- Modelled from the spec's words (for the refinement claim about
`matchFace`): compute the cosine similarity against every enrolled
embedding, take the maximum score, select the first entry attaining it;
if the best raw score strictly exceeds 0.4 report that entry's name with
the remapped score, otherwise report "Unknown" with the raw score; on an
empty gallery report "Unknown" with score 0. -/
noncomputable def specMatchFace (embedding : List ℝ)
    (faces : List KnownFace) : String × ℝ :=
  match faces with
  | [] => ("Unknown", 0)
  | f :: fs =>
    let score := fun g : KnownFace => cosineSimilarity embedding g.embedding
    let best := (fs.map score).foldl max (score f)
    let firstBest :=
      (((f :: fs).find? (fun g => score g = best)).map KnownFace.name).getD
        "Unknown"
    if 0.4 < best then (firstBest, mappedScore best)
    else ("Unknown", best)

end FaceMatcher

namespace FaceMatcher

/-- Denominator of `cosineSimilarity` is at least `1e-6 > 0`. -/
theorem cosine_denom_pos (a b : List ℝ) :
    0 < Real.sqrt (∑ i in Finset.range a.length, a.getD i 0 * a.getD i 0) *
        Real.sqrt (∑ i in Finset.range a.length, b.getD i 0 * b.getD i 0)
        + 1e-6 := by
  have h1 : (0:ℝ) ≤
      Real.sqrt (∑ i in Finset.range a.length, a.getD i 0 * a.getD i 0) *
      Real.sqrt (∑ i in Finset.range a.length, b.getD i 0 * b.getD i 0) :=
    mul_nonneg (Real.sqrt_nonneg _) (Real.sqrt_nonneg _)
  have h2 : (0:ℝ) < 1e-6 := by norm_num
  linarith

/-- Cauchy–Schwarz for the model: every cosine similarity is strictly
greater than `-1`, because `|dot| ≤ √magA·√magB < √magA·√magB + 1e-6`. -/
theorem cosine_gt_neg_one (a b : List ℝ) : -1 < cosineSimilarity a b := by
  classical
  unfold cosineSimilarity
  set f : ℕ → ℝ := fun i => a.getD i 0 with hf
  set g : ℕ → ℝ := fun i => b.getD i 0 with hg
  have hcs :
      ∑ i in Finset.range a.length, (fun i => -(f i)) i * g i ≤
        Real.sqrt (∑ i in Finset.range a.length, (fun i => -(f i)) i ^ 2) *
        Real.sqrt (∑ i in Finset.range a.length, g i ^ 2) :=
    Real.sum_mul_le_sqrt_mul_sqrt _ _ _
  have hneg : ∑ i in Finset.range a.length, (fun i => -(f i)) i * g i =
      -(∑ i in Finset.range a.length, f i * g i) := by
    rw [← Finset.sum_neg_distrib]
    exact Finset.sum_congr rfl (fun i _ => by ring)
  have hsq : ∑ i in Finset.range a.length, (fun i => -(f i)) i ^ 2 =
      ∑ i in Finset.range a.length, f i * f i :=
    Finset.sum_congr rfl (fun i _ => by ring)
  have hsqg : ∑ i in Finset.range a.length, g i ^ 2 =
      ∑ i in Finset.range a.length, g i * g i :=
    Finset.sum_congr rfl (fun i _ => by ring)
  rw [hneg, hsq, hsqg] at hcs
  set D := Real.sqrt (∑ i in Finset.range a.length, f i * f i) *
      Real.sqrt (∑ i in Finset.range a.length, g i * g i) with hD
  have hDpos : 0 < D + 1e-6 := by
    have := mul_nonneg
      (Real.sqrt_nonneg (∑ i in Finset.range a.length, f i * f i))
      (Real.sqrt_nonneg (∑ i in Finset.range a.length, g i * g i))
    have h2 : (0:ℝ) < 1e-6 := by norm_num
    rw [hD]; linarith
  rw [neg_lt, ← neg_div]
  rw [div_lt_one hDpos]
  have h2 : (0:ℝ) < 1e-6 := by norm_num
  linarith

end FaceMatcher

namespace FaceMatcher

/-- Seed of a running-max fold is a lower bound of its result. -/
theorem le_foldl_max {α : Type} (sc : α → ℝ) :
    ∀ (l : List α) (b : ℝ), b ≤ l.foldl (fun x g => max x (sc g)) b := by
  intro l
  induction l with
  | nil => intro b; simp
  | cons f t ih =>
    intro b
    simp only [List.foldl_cons]
    exact le_trans (le_max_left b (sc f)) (ih (max b (sc f)))

/-- Result of a running-max fold is either the seed or the value of some
list element. -/
theorem foldl_max_attained {α : Type} (sc : α → ℝ) :
    ∀ (l : List α) (b : ℝ),
      l.foldl (fun x g => max x (sc g)) b = b ∨
        ∃ g ∈ l, l.foldl (fun x g => max x (sc g)) b = sc g := by
  intro l
  induction l with
  | nil => intro b; left; rfl
  | cons f t ih =>
    intro b
    simp only [List.foldl_cons]
    rcases ih (max b (sc f)) with h | ⟨g, hg, hEq⟩
    · rcases max_choice b (sc f) with hm | hm
      · left; rw [h, hm]
      · right; exact ⟨f, List.mem_cons_self f t, by rw [h, hm]⟩
    · right; exact ⟨g, List.mem_cons_of_mem f hg, hEq⟩

open Classical in
/-- Characterization of the strict-greater scan used by `matchFace`:
starting from seed `(b, n)` it returns the running maximum together with
the label of the first element strictly exceeding the seed and attaining
the maximum; if no element exceeds the seed the seed's label survives. -/
theorem foldl_scan_eq {α : Type} (sc : α → ℝ) (nm : α → String) :
    ∀ (l : List α) (b : ℝ) (n : String),
      l.foldl (fun acc g => if acc.1 < sc g then (sc g, nm g) else acc) (b, n) =
        (l.foldl (fun x g => max x (sc g)) b,
          if l.foldl (fun x g => max x (sc g)) b ≤ b then n
          else (((l.find? (fun g =>
              sc g = l.foldl (fun x g => max x (sc g)) b)).map nm).getD n)) := by
  intro l
  induction l with
  | nil => intro b n; simp
  | cons f t ih =>
    intro b n
    by_cases hlt : b < sc f
    · have hM : (f :: t).foldl (fun x g => max x (sc g)) b
          = t.foldl (fun x g => max x (sc g)) (sc f) := by
        simp only [List.foldl_cons]
        congr 1
        exact max_eq_right hlt.le
      have hMge : sc f ≤ t.foldl (fun x g => max x (sc g)) (sc f) :=
        le_foldl_max sc t (sc f)
      have hL : (f :: t).foldl
            (fun acc g => if acc.1 < sc g then (sc g, nm g) else acc) (b, n)
          = t.foldl
            (fun acc g => if acc.1 < sc g then (sc g, nm g) else acc)
            (sc f, nm f) := by
        simp only [List.foldl_cons]
        congr 1
        simp [hlt]
      rw [hL, ih, hM]
      have hnb : ¬ t.foldl (fun x g => max x (sc g)) (sc f) ≤ b := by
        push_neg
        exact lt_of_lt_of_le hlt hMge
      rw [if_neg hnb]
      by_cases heq : sc f = t.foldl (fun x g => max x (sc g)) (sc f)
      · have hle : t.foldl (fun x g => max x (sc g)) (sc f) ≤ sc f := le_of_eq heq.symm
        rw [if_pos hle, List.find?_cons_of_pos _ (by simpa using heq)]
        simp
      · have hlt2 : sc f < t.foldl (fun x g => max x (sc g)) (sc f) :=
          lt_of_le_of_ne hMge heq
        rw [if_neg (not_le.mpr hlt2), List.find?_cons_of_neg _ (by simpa using heq)]
        have hex : ∃ g ∈ t, sc g = t.foldl (fun x g => max x (sc g)) (sc f) := by
          rcases foldl_max_attained sc t (sc f) with h | ⟨g, hg, hEq⟩
          · exact absurd h.symm heq
          · exact ⟨g, hg, hEq.symm⟩
        obtain ⟨g, hgmem, hgeq⟩ := hex
        have hsome : (t.find? (fun g =>
            sc g = t.foldl (fun x g => max x (sc g)) (sc f))).isSome :=
          List.find?_isSome.mpr ⟨g, hgmem, by simpa using hgeq⟩
        obtain ⟨a, ha⟩ := Option.isSome_iff_exists.mp hsome
        rw [ha]
        simp
    · have hble : sc f ≤ b := not_lt.mp hlt
      have hM : (f :: t).foldl (fun x g => max x (sc g)) b
          = t.foldl (fun x g => max x (sc g)) b := by
        simp only [List.foldl_cons]
        congr 1
        exact max_eq_left hble
      have hL : (f :: t).foldl
            (fun acc g => if acc.1 < sc g then (sc g, nm g) else acc) (b, n)
          = t.foldl
            (fun acc g => if acc.1 < sc g then (sc g, nm g) else acc) (b, n) := by
        simp only [List.foldl_cons]
        congr 1
        simp [hlt]
      rw [hL, ih, hM]
      by_cases hc : t.foldl (fun x g => max x (sc g)) b ≤ b
      · rw [if_pos hc, if_pos hc]
      · rw [if_neg hc, if_neg hc]
        have hne : ¬ sc f = t.foldl (fun x g => max x (sc g)) b := by
          intro h
          exact hc (h ▸ hble)
        rw [List.find?_cons_of_neg _ (by simpa using hne)]

end FaceMatcher

namespace FaceMatcher

open Classical in
/-- Claim C1: `matchFace` implements the specified similarity matcher: it
scores every gallery entry by cosine similarity, selects the first entry
attaining the maximum (strict `>` scan in gallery order), applies the
`0.8 + ((s - 0.4)/0.6)*0.2` remap when the best raw score strictly
exceeds 0.4 and otherwise reports "Unknown" with the raw score, and
returns `("Unknown", 0)` on the empty gallery.  The length hypothesis
restricts to galleries whose embeddings have the query's length, the
domain on which the JavaScript floating-point loop reads no undefined
slot. -/
theorem matchFace_eq_specMatchFace (embedding : List ℝ)
    (faces : List KnownFace)
    (hlen : ∀ f ∈ faces, f.embedding.length = embedding.length) :
    matchFace embedding faces = specMatchFace embedding faces := by
  cases faces with
  | nil => simp [matchFace, specMatchFace]
  | cons f fs =>
    have hsc : (-1 : ℝ) < cosineSimilarity embedding f.embedding :=
      cosine_gt_neg_one embedding f.embedding
    have hstep : matchStep embedding =
        fun (acc : ℝ × String) (g : KnownFace) =>
          if acc.1 < cosineSimilarity embedding g.embedding
          then (cosineSimilarity embedding g.embedding, g.name) else acc := rfl
    have hscan := foldl_scan_eq
        (fun g : KnownFace => cosineSimilarity embedding g.embedding)
        (fun g : KnownFace => g.name) (f :: fs) (-1) "Unknown"
    simp only at hscan
    have hM1 : (f :: fs).foldl
          (fun x g => max x (cosineSimilarity embedding g.embedding)) (-1)
        = fs.foldl (fun x g => max x (cosineSimilarity embedding g.embedding))
            (cosineSimilarity embedding f.embedding) := by
      simp only [List.foldl_cons]
      congr 1
      exact max_eq_right hsc.le
    have hMge : cosineSimilarity embedding f.embedding ≤
        fs.foldl (fun x g => max x (cosineSimilarity embedding g.embedding))
          (cosineSimilarity embedding f.embedding) :=
      le_foldl_max _ fs _
    have hMgt : ¬ fs.foldl
          (fun x g => max x (cosineSimilarity embedding g.embedding))
          (cosineSimilarity embedding f.embedding) ≤ (-1 : ℝ) := by
      push_neg
      exact lt_of_lt_of_le hsc hMge
    rw [hM1] at hscan
    rw [if_neg hMgt] at hscan
    have hM2 : (fs.map (fun g : KnownFace =>
          cosineSimilarity embedding g.embedding)).foldl max
            (cosineSimilarity embedding f.embedding)
        = fs.foldl (fun x g => max x (cosineSimilarity embedding g.embedding))
            (cosineSimilarity embedding f.embedding) :=
      List.foldl_map _ _ _ _
    simp only [matchFace, specMatchFace, List.length_cons]
    rw [if_neg (by simp : ¬ (fs.length + 1 = 0))]
    rw [hstep, hscan, hM2]

end FaceMatcher

namespace FaceMatcher

/-- Witness for the matcher refinement at a concrete two-entry gallery. -/
theorem matchFace_eq_specMatchFace_witness :
    (∀ f ∈ [KnownFace.mk "Alice" [1, 0] none 0,
            KnownFace.mk "Bob" [0, 1] none 1],
        f.embedding.length = ([1, 0] : List ℝ).length) ∧
      matchFace [1, 0]
          [KnownFace.mk "Alice" [1, 0] none 0,
           KnownFace.mk "Bob" [0, 1] none 1] =
        specMatchFace [1, 0]
          [KnownFace.mk "Alice" [1, 0] none 0,
           KnownFace.mk "Bob" [0, 1] none 1] := by
  have h : ∀ f ∈ [KnownFace.mk "Alice" [1, 0] none 0,
      KnownFace.mk "Bob" [0, 1] none 1],
      f.embedding.length = ([1, 0] : List ℝ).length := by
    intro f hf
    rcases List.mem_cons.mp hf with rfl | hf
    · rfl
    rcases List.mem_cons.mp hf with rfl | hf
    · rfl
    · exact absurd hf (List.not_mem_nil f)
  exact ⟨h, matchFace_eq_specMatchFace _ _ h⟩

/-- Evaluation of the cosine similarity at a gallery chosen so that the
raw score is exactly the 0.4 threshold: `(1/1500000) / (1·(1/1500000) +
1e-6) = 2/5`. -/
theorem cosine_exact_point_four :
    cosineSimilarity [(1 : ℝ)] [(1 / 1500000 : ℝ)] = 2 / 5 := by
  unfold cosineSimilarity
  simp only [List.length_singleton, Finset.sum_range_one, List.getD_cons_zero]
  rw [show (1 : ℝ) * 1 = 1 by ring, Real.sqrt_one,
    Real.sqrt_mul_self (by norm_num : (0:ℝ) ≤ 1 / 1500000)]
  norm_num

end FaceMatcher

namespace FaceMatcher

/-- Counterexample to claim C2 as stated: with gallery
`[⟨"Alice", [1/1500000]⟩]` and query `[1]` the best raw cosine score is
exactly 0.4, yet `matchFace` returns `("Unknown", 0.4)` — not the matched
entry's name "Alice" with remapped score 0.8 — because the threshold
comparison is strict. -/
theorem matchFace_threshold_counterexample :
    cosineSimilarity [(1 : ℝ)] [(1 / 1500000 : ℝ)] = 2 / 5 ∧
      matchFace [(1 : ℝ)] [⟨"Alice", [(1 / 1500000 : ℝ)], none, 0⟩] =
        ("Unknown", 2 / 5) ∧
      ("Unknown" : String) ≠ "Alice" ∧ ((2 : ℝ) / 5) ≠ 0.8 := by
  refine ⟨cosine_exact_point_four, ?_, by simp, by norm_num⟩
  simp only [matchFace, List.length_singleton, List.foldl_cons, List.foldl_nil,
    matchStep, cosine_exact_point_four]
  rw [if_neg (by norm_num : ¬ (1 : ℕ) = 0)]
  rw [if_pos (by norm_num : ((-1 : ℝ), "Unknown").1 < 2 / 5)]
  rw [if_neg (by norm_num : ¬ (0.4 : ℝ) < ((2 / 5 : ℝ), "Alice").1)]

/-- Claim C2 amended: when the best raw score of the scan equals exactly
0.4, `matchFace` reports "Unknown" with the raw score 0.4 (the strict
threshold excludes equality); the remap formula itself does send 0.4 to
0.8 but is only applied strictly above threshold. -/
theorem matchFace_threshold_amended (embedding : List ℝ)
    (faces : List KnownFace)
    (hbest : (faces.foldl (matchStep embedding) ((-1 : ℝ), "Unknown")).1
      = 2 / 5) :
    matchFace embedding faces = ("Unknown", 2 / 5) ∧
      mappedScore (2 / 5) = 0.8 := by
  constructor
  · have hne : ¬ faces.length = 0 := by
      intro h0
      rw [List.length_eq_zero] at h0
      subst h0
      simp only [List.foldl_nil] at hbest
      norm_num at hbest
    simp only [matchFace]
    rw [if_neg hne, hbest]
    rw [if_neg (by norm_num : ¬ (0.4 : ℝ) < 2 / 5)]
  · unfold mappedScore
    norm_num

/-- Witness for the amended threshold claim at the concrete gallery of
the counterexample. -/
theorem matchFace_threshold_amended_witness :
    ((([⟨"Alice", [(1 / 1500000 : ℝ)], none, 0⟩] : List KnownFace).foldl
        (matchStep [(1 : ℝ)]) ((-1 : ℝ), "Unknown")).1 = 2 / 5) ∧
      (matchFace [(1 : ℝ)] [⟨"Alice", [(1 / 1500000 : ℝ)], none, 0⟩] =
        ("Unknown", 2 / 5) ∧ mappedScore (2 / 5) = 0.8) := by
  have h : (([⟨"Alice", [(1 / 1500000 : ℝ)], none, 0⟩] : List KnownFace).foldl
      (matchStep [(1 : ℝ)]) ((-1 : ℝ), "Unknown")).1 = 2 / 5 := by
    simp only [List.foldl_cons, List.foldl_nil, matchStep,
      cosine_exact_point_four]
    rw [if_pos (by norm_num : ((-1 : ℝ), "Unknown").1 < 2 / 5)]
  exact ⟨h, matchFace_threshold_amended _ _ h⟩

end FaceMatcher

namespace FaceMatcher

/-- Every slot read by the cosine loop of an all-zero list is zero
(in-range reads hit a zero element, out-of-range reads give the default). -/
theorem getD_eq_zero_of_all_zero (l : List ℝ) (h : ∀ x ∈ l, x = 0) (i : ℕ) :
    l.getD i 0 = 0 := by
  rcases lt_or_ge i l.length with hi | hi
  · rw [List.getD_eq_getElem l 0 hi]
    exact h _ (l.getElem_mem hi)
  · exact List.getD_eq_default l 0 (by omega)

/-- Claim C8: `cosineSimilarity` is total on equal-length vectors: its
divisor `√magA·√magB + 1e-6` is strictly positive (no division by zero),
and if either vector is all zeros the result is 0. -/
theorem cosineSimilarity_total (a b : List ℝ) (hlen : a.length = b.length) :
    (0 < Real.sqrt (∑ i in Finset.range a.length, a.getD i 0 * a.getD i 0) *
        Real.sqrt (∑ i in Finset.range a.length, b.getD i 0 * b.getD i 0)
        + 1e-6) ∧
      ((∀ x ∈ a, x = 0) → cosineSimilarity a b = 0) ∧
      ((∀ x ∈ b, x = 0) → cosineSimilarity a b = 0) := by
  refine ⟨cosine_denom_pos a b, ?_, ?_⟩
  · intro ha
    unfold cosineSimilarity
    have hdot : ∑ i in Finset.range a.length, a.getD i 0 * b.getD i 0 = 0 :=
      Finset.sum_eq_zero fun i _ => by
        rw [getD_eq_zero_of_all_zero a ha i, zero_mul]
    rw [hdot, zero_div]
  · intro hb
    unfold cosineSimilarity
    have hdot : ∑ i in Finset.range a.length, a.getD i 0 * b.getD i 0 = 0 :=
      Finset.sum_eq_zero fun i _ => by
        rw [getD_eq_zero_of_all_zero b hb i, mul_zero]
    rw [hdot, zero_div]

/-- Witness for totality of `cosineSimilarity` at a concrete pair. -/
theorem cosineSimilarity_total_witness :
    ([(0 : ℝ), 0].length = [(3 : ℝ), 4].length) ∧
      ((0 < Real.sqrt (∑ i in Finset.range ([(0 : ℝ), 0]).length,
            ([(0 : ℝ), 0]).getD i 0 * ([(0 : ℝ), 0]).getD i 0) *
          Real.sqrt (∑ i in Finset.range ([(0 : ℝ), 0]).length,
            ([(3 : ℝ), 4]).getD i 0 * ([(3 : ℝ), 4]).getD i 0) + 1e-6) ∧
        ((∀ x ∈ [(0 : ℝ), 0], x = 0) →
          cosineSimilarity [(0 : ℝ), 0] [(3 : ℝ), 4] = 0) ∧
        ((∀ x ∈ [(3 : ℝ), 4], x = 0) →
          cosineSimilarity [(0 : ℝ), 0] [(3 : ℝ), 4] = 0)) :=
  ⟨rfl, cosineSimilarity_total _ _ rfl⟩

/-- Claim C9: `deleteKnownFace` produces the order-preserving sublist of
the gallery (kept entries unchanged) containing exactly the entries whose
timestamp differs from the argument's; every entry sharing the timestamp
is removed. -/
theorem deleteKnownFace_spec (faces : List KnownFace) (face : KnownFace) :
    (deleteKnownFace faces face).Sublist faces ∧
      ∀ f, f ∈ deleteKnownFace faces face ↔
        (f ∈ faces ∧ f.timestamp ≠ face.timestamp) := by
  constructor
  · exact List.filter_sublist _
  · intro f
    simp [deleteKnownFace, List.mem_filter]

/-- State of the app-component fields touched by `toggleColorMode`
(`app.component.ts`): the recognition service's `useBGR` and `knownFaces`
signals and the component's `currentMatch` signal. -/
structure AppComponentState where
  useBGR : Bool
  knownFaces : List KnownFace
  currentMatch : String

/-- Model of `toggleColorMode()` from `app.component.ts`:
`useBGR.update(v => !v)`, `knownFaces.set([])` and
`currentMatch.set("Unknown")`, unconditionally. -/
def toggleColorMode (s : AppComponentState) : AppComponentState :=
  { useBGR := !s.useBGR, knownFaces := [], currentMatch := "Unknown" }

/-- Claim C10: toggling the channel order flips `useBGR` and
unconditionally clears the enrolled gallery and resets the displayed
match to "Unknown"; no enrolled face survives the toggle. -/
theorem toggleColorMode_resets (s : AppComponentState) :
    (toggleColorMode s).useBGR = !s.useBGR ∧
      (toggleColorMode s).knownFaces = [] ∧
      (toggleColorMode s).currentMatch = "Unknown" ∧
      ∀ f : KnownFace, f ∉ (toggleColorMode s).knownFaces := by
  refine ⟨rfl, rfl, rfl, ?_⟩
  intro f h
  exact absurd h (List.not_mem_nil f)

end FaceMatcher

namespace FaceMatcher

/-- Worker-global state of `face-processor.worker.ts`: `session` (modelled
as a Boolean "an engine instance is loaded", i.e. `session !== null`) and
the `isLoading` flag.  `isLoading` is `true` exactly while the awaited
`InferenceSession.create` is in flight; a message dispatched in that
window sees `⟨false, true⟩`. -/
structure WorkerState where
  hasSession : Bool
  isLoading : Bool
deriving DecidableEq

/-- Observable outputs of the worker's LOAD_MODEL branch. -/
inductive WorkerOut where
  | modelLoaded (payload : Bool)
  | errorMsg (payload : String)
deriving DecidableEq

/-- Model of the `LOAD_MODEL` case of the worker's message handler
(lines 12–31 of `face-processor.worker.ts`): the body runs only under the
guard `!session && !isLoading`; on success it sets `session` and posts
`MODEL_LOADED`, on failure it posts `ERROR`; `isLoading` is reset in the
`finally` block.  `loadOk` abstracts whether `InferenceSession.create`
succeeds. -/
def handleLoadModel (s : WorkerState) (loadOk : Bool) :
    WorkerState × List WorkerOut :=
  if s.hasSession = false ∧ s.isLoading = false then
    if loadOk then
      ({ hasSession := true, isLoading := false }, [.modelLoaded true])
    else
      ({ hasSession := false, isLoading := false },
        [.errorMsg "Failed to load EdgeFace"])
  else (s, [])

/-- Counterexample to claim C4 as stated: a LOAD_MODEL request arriving
in the READY state (`session` present, not loading) is a complete no-op —
the worker neither releases the engine nor transitions to LOADING nor
loads a fresh engine (no state change, no output), for either outcome of
a hypothetical load. -/
theorem handleLoadModel_ready_counterexample :
    handleLoadModel ⟨true, false⟩ true = (⟨true, false⟩, []) ∧
      handleLoadModel ⟨true, false⟩ false = (⟨true, false⟩, []) := by
  constructor <;> rfl

/-- Claim C4 amended: a LOAD_MODEL request is ignored both while READY
(an engine instance is already loaded) and while LOADING — the guard
`!session && !isLoading` makes it a no-op in either state; the worker
never releases or reloads an existing engine. -/
theorem handleLoadModel_noop (s : WorkerState) (loadOk : Bool)
    (h : s.hasSession = true ∨ s.isLoading = true) :
    handleLoadModel s loadOk = (s, []) := by
  unfold handleLoadModel
  rw [if_neg]
  rcases h with h | h <;> simp [h]

/-- Witness for the amended LOAD_MODEL no-op claim in the LOADING state. -/
theorem handleLoadModel_noop_witness :
    ((⟨false, true⟩ : WorkerState).hasSession = true ∨
        (⟨false, true⟩ : WorkerState).isLoading = true) ∧
      handleLoadModel ⟨false, true⟩ true = (⟨false, true⟩, []) :=
  ⟨Or.inr rfl, handleLoadModel_noop _ _ (Or.inr rfl)⟩

end FaceMatcher

namespace FaceMatcher

/-- Pending-call record stored in `pendingRequests`
(`face-recognition.service.ts` line 19): the `resolve` and `reject`
callbacks, abstracted as opaque tokens of type `α`. -/
structure PendingRecord (α : Type) where
  resolve : α
  reject : α

/-- Messages received from the worker by `worker.onmessage`
(lines 30–51 of the service).  The `id` of a RESULT/ERROR message is a
string; JavaScript `undefined` or empty ids are falsy and modelled by
`""`. -/
inductive WorkerResponse (π : Type) where
  | modelLoaded (payload : Bool)
  | result (payload : π) (id : String)
  | errorResp (payload : π) (id : String)

/-- Observable effects of one run of the `onmessage` handler. -/
inductive BrokerEvent (α π : Type) where
  | setModelLoaded (payload : Bool)
  | resolveCall (cb : α) (payload : π)
  | rejectCall (cb : α) (payload : π)
  | logWorkerError (payload : π)

/-- Model of the `worker.onmessage` switch of
`face-recognition.service.ts` (lines 30–51).  The pending table is a map
from ids to records; `if (id && pendingRequests.has(id))` is modelled by
the truthiness test `id ≠ ""` followed by the lookup; deletion replaces
the entry by `none` and leaves every other key untouched.  On ERROR the
`console.error` runs before the lookup, hence the unconditional
`logWorkerError` event. -/
def onWorkerMessage {α π : Type} (table : String → Option (PendingRecord α))
    (msg : WorkerResponse π) :
    (String → Option (PendingRecord α)) × List (BrokerEvent α π) :=
  match msg with
  | .modelLoaded b => (table, [.setModelLoaded b])
  | .result p id =>
    if id ≠ "" then
      match table id with
      | some r =>
        ((fun k => if k = id then none else table k),
          [.resolveCall r.resolve p])
      | none => (table, [])
    else (table, [])
  | .errorResp p id =>
    if id ≠ "" then
      match table id with
      | some r =>
        ((fun k => if k = id then none else table k),
          [.logWorkerError p, .rejectCall r.reject p])
      | none => (table, [.logWorkerError p])
    else (table, [.logWorkerError p])

/-- Counterexample to claim C7 as stated: a RESULT message whose id is
the empty string is dropped even though that id is present in the
pending table — the record's callback is not invoked and the record is
not removed, because the handler's truthiness guard `if (id && ...)`
rejects the empty string. -/
theorem onWorkerMessage_emptyId_counterexample :
    ((fun k => if k = "" then some (⟨1, 2⟩ : PendingRecord ℕ) else none) "")
        = some ⟨1, 2⟩ ∧
      onWorkerMessage
          (fun k => if k = "" then some (⟨1, 2⟩ : PendingRecord ℕ) else none)
          (WorkerResponse.result (0 : ℕ) "") =
        ((fun k => if k = "" then some (⟨1, 2⟩ : PendingRecord ℕ) else none),
          []) :=
  ⟨rfl, rfl⟩

/-- Claim C7 amended: for every RESULT or ERROR message carrying a
non-empty id, if the id is in the pending table the matching record's
callback is invoked (resolve on RESULT, reject on ERROR) and exactly that
entry is removed; if the id is not in the table the table is unchanged
and the response is dropped (ERROR still logs).  A message whose id is
the empty string is falsy in JavaScript and treated as carrying no id. -/
theorem onWorkerMessage_dispatch {α π : Type}
    (table : String → Option (PendingRecord α)) (id : String) (p : π)
    (hid : id ≠ "") :
    (∀ r, table id = some r →
        onWorkerMessage table (.result p id) =
          ((fun k => if k = id then none else table k),
            [.resolveCall r.resolve p]) ∧
        onWorkerMessage table (.errorResp p id) =
          ((fun k => if k = id then none else table k),
            [.logWorkerError p, .rejectCall r.reject p])) ∧
      (table id = none →
        onWorkerMessage table (.result p id) = (table, []) ∧
        onWorkerMessage table (.errorResp p id) =
          (table, [.logWorkerError p])) := by
  constructor
  · intro r hr
    constructor <;>
      · simp only [onWorkerMessage]
        rw [if_pos hid, hr]
  · intro hr
    constructor <;>
      · simp only [onWorkerMessage]
        rw [if_pos hid, hr]

/-- Witness for the amended broker-dispatch claim at a concrete table. -/
theorem onWorkerMessage_dispatch_witness :
    ("x" ≠ "") ∧
      ((∀ r, (fun k => if k = "x" then some (⟨1, 2⟩ : PendingRecord ℕ)
            else none) "x" = some r →
          onWorkerMessage
              (fun k => if k = "x" then some (⟨1, 2⟩ : PendingRecord ℕ)
                else none)
              (WorkerResponse.result (5 : ℕ) "x") =
            ((fun k => if k = "x" then none
              else (fun k => if k = "x" then some (⟨1, 2⟩ : PendingRecord ℕ)
                else none) k),
              [.resolveCall r.resolve 5]) ∧
          onWorkerMessage
              (fun k => if k = "x" then some (⟨1, 2⟩ : PendingRecord ℕ)
                else none)
              (WorkerResponse.errorResp (5 : ℕ) "x") =
            ((fun k => if k = "x" then none
              else (fun k => if k = "x" then some (⟨1, 2⟩ : PendingRecord ℕ)
                else none) k),
              [.logWorkerError 5, .rejectCall r.reject 5])) ∧
        ((fun k => if k = "x" then some (⟨1, 2⟩ : PendingRecord ℕ)
            else none) "x" = none →
          onWorkerMessage
              (fun k => if k = "x" then some (⟨1, 2⟩ : PendingRecord ℕ)
                else none)
              (WorkerResponse.result (5 : ℕ) "x") =
            ((fun k => if k = "x" then some (⟨1, 2⟩ : PendingRecord ℕ)
              else none), []) ∧
          onWorkerMessage
              (fun k => if k = "x" then some (⟨1, 2⟩ : PendingRecord ℕ)
                else none)
              (WorkerResponse.errorResp (5 : ℕ) "x") =
            ((fun k => if k = "x" then some (⟨1, 2⟩ : PendingRecord ℕ)
              else none), [.logWorkerError 5]))) :=
  ⟨by decide,
    onWorkerMessage_dispatch
      (fun k => if k = "x" then some (⟨1, 2⟩ : PendingRecord ℕ) else none)
      "x" 5 (by decide)⟩

end FaceMatcher

namespace FaceMatcher

/-- Landmark point, from `interface Point { x, y }` in the alignment
module. -/
structure Point where
  x : ℝ
  y : ℝ

/-- The process-wide constant `REFERENCE_LANDMARKS`: canonical ArcFace /
EdgeFace five-point layout in the 112×112 frame. -/
noncomputable def referenceLandmarks : List Point :=
  [⟨38.2946, 51.6963⟩, ⟨73.5318, 51.5014⟩, ⟨56.0252, 71.7366⟩,
   ⟨41.5493, 92.3655⟩, ⟨70.7299, 92.2041⟩]

/-- Shorthand for `REFERENCE_LANDMARKS[i]`. -/
noncomputable def refP (i : ℕ) : Point := referenceLandmarks.getD i ⟨0, 0⟩

/-- Source centroid x `srcCx`, the mean of the five source x-samples. -/
noncomputable def srcMeanX (p0 p1 p2 p3 p4 : Point) : ℝ :=
  (p0.x + p1.x + p2.x + p3.x + p4.x) / 5

/-- Source centroid y `srcCy`. -/
noncomputable def srcMeanY (p0 p1 p2 p3 p4 : Point) : ℝ :=
  (p0.y + p1.y + p2.y + p3.y + p4.y) / 5

/-- Destination centroid x `dstCx`, the mean over `REFERENCE_LANDMARKS`. -/
noncomputable def dstMeanX : ℝ :=
  ((refP 0).x + (refP 1).x + (refP 2).x + (refP 3).x + (refP 4).x) / 5

/-- Destination centroid y `dstCy`. -/
noncomputable def dstMeanY : ℝ :=
  ((refP 0).y + (refP 1).y + (refP 2).y + (refP 3).y + (refP 4).y) / 5

/-- The accumulator `A` of `estimateAffineTransform`: the dot-product sum
of the demeaned source and demeaned reference points. -/
noncomputable def sumA (p0 p1 p2 p3 p4 : Point) : ℝ :=
  (p0.x - srcMeanX p0 p1 p2 p3 p4) * ((refP 0).x - dstMeanX) +
    (p0.y - srcMeanY p0 p1 p2 p3 p4) * ((refP 0).y - dstMeanY) +
  ((p1.x - srcMeanX p0 p1 p2 p3 p4) * ((refP 1).x - dstMeanX) +
    (p1.y - srcMeanY p0 p1 p2 p3 p4) * ((refP 1).y - dstMeanY)) +
  ((p2.x - srcMeanX p0 p1 p2 p3 p4) * ((refP 2).x - dstMeanX) +
    (p2.y - srcMeanY p0 p1 p2 p3 p4) * ((refP 2).y - dstMeanY)) +
  ((p3.x - srcMeanX p0 p1 p2 p3 p4) * ((refP 3).x - dstMeanX) +
    (p3.y - srcMeanY p0 p1 p2 p3 p4) * ((refP 3).y - dstMeanY)) +
  ((p4.x - srcMeanX p0 p1 p2 p3 p4) * ((refP 4).x - dstMeanX) +
    (p4.y - srcMeanY p0 p1 p2 p3 p4) * ((refP 4).y - dstMeanY))

/-- The accumulator `B`: the cross-term sum
`Σ (src_x·dst_y − src_y·dst_x)` over demeaned points. -/
noncomputable def sumB (p0 p1 p2 p3 p4 : Point) : ℝ :=
  (p0.x - srcMeanX p0 p1 p2 p3 p4) * ((refP 0).y - dstMeanY) -
    (p0.y - srcMeanY p0 p1 p2 p3 p4) * ((refP 0).x - dstMeanX) +
  ((p1.x - srcMeanX p0 p1 p2 p3 p4) * ((refP 1).y - dstMeanY) -
    (p1.y - srcMeanY p0 p1 p2 p3 p4) * ((refP 1).x - dstMeanX)) +
  ((p2.x - srcMeanX p0 p1 p2 p3 p4) * ((refP 2).y - dstMeanY) -
    (p2.y - srcMeanY p0 p1 p2 p3 p4) * ((refP 2).x - dstMeanX)) +
  ((p3.x - srcMeanX p0 p1 p2 p3 p4) * ((refP 3).y - dstMeanY) -
    (p3.y - srcMeanY p0 p1 p2 p3 p4) * ((refP 3).x - dstMeanX)) +
  ((p4.x - srcMeanX p0 p1 p2 p3 p4) * ((refP 4).y - dstMeanY) -
    (p4.y - srcMeanY p0 p1 p2 p3 p4) * ((refP 4).x - dstMeanX))

/-- The accumulator `D`: the squared norm sum of the demeaned source. -/
noncomputable def sumD (p0 p1 p2 p3 p4 : Point) : ℝ :=
  ((p0.x - srcMeanX p0 p1 p2 p3 p4) ^ 2 +
    (p0.y - srcMeanY p0 p1 p2 p3 p4) ^ 2) +
  ((p1.x - srcMeanX p0 p1 p2 p3 p4) ^ 2 +
    (p1.y - srcMeanY p0 p1 p2 p3 p4) ^ 2) +
  ((p2.x - srcMeanX p0 p1 p2 p3 p4) ^ 2 +
    (p2.y - srcMeanY p0 p1 p2 p3 p4) ^ 2) +
  ((p3.x - srcMeanX p0 p1 p2 p3 p4) ^ 2 +
    (p3.y - srcMeanY p0 p1 p2 p3 p4) ^ 2) +
  ((p4.x - srcMeanX p0 p1 p2 p3 p4) ^ 2 +
    (p4.y - srcMeanY p0 p1 p2 p3 p4) ^ 2)

/-- Body of `estimateAffineTransform` (lines 29–84 of the alignment
module) once the 5-point guard has passed:
`scale = √(A²+B²)/D`, `cos = A/√(A²+B²)`, `sin = B/√(A²+B²)`,
`[T_a, T_b, tx, T_c, T_d, ty]` with `T_a = scale·cos`, `T_b = -scale·sin`,
`T_c = scale·sin`, `T_d = scale·cos` and the translation placing the
source centroid on the destination centroid.  Division by zero (the
degenerate case `D = 0`, or `A = B = 0`) is modelled by the real-field
convention `x / 0 = 0`; the source computes NaN entries there but equally
returns a 6-element array without throwing. -/
noncomputable def estimateBody (p0 p1 p2 p3 p4 : Point) : List ℝ :=
  let A := sumA p0 p1 p2 p3 p4
  let B := sumB p0 p1 p2 p3 p4
  let D := sumD p0 p1 p2 p3 p4
  let scale := Real.sqrt (A * A + B * B) / D
  let cosv := A / Real.sqrt (A * A + B * B)
  let sinv := B / Real.sqrt (A * A + B * B)
  let Ta := scale * cosv
  let Tb := -scale * sinv
  let Tc := scale * sinv
  let Td := scale * cosv
  let tx := dstMeanX -
    (Ta * srcMeanX p0 p1 p2 p3 p4 + Tb * srcMeanY p0 p1 p2 p3 p4)
  let ty := dstMeanY -
    (Tc * srcMeanX p0 p1 p2 p3 p4 + Td * srcMeanY p0 p1 p2 p3 p4)
  [Ta, Tb, tx, Tc, Td, ty]

/-- Model of `estimateAffineTransform(srcPoints)`: throws (models as
`Except.error`) unless exactly 5 source points are supplied, otherwise
returns the 6-element similarity matrix `[a, b, tx, c, d, ty]`. -/
noncomputable def estimateAffineTransform (srcPoints : List Point) :
    Except String (List ℝ) :=
  if srcPoints.length ≠ 5 then
    Except.error "Alignment requires exactly 5 landmarks"
  else
    Except.ok (estimateBody (srcPoints.getD 0 ⟨0, 0⟩) (srcPoints.getD 1 ⟨0, 0⟩)
      (srcPoints.getD 2 ⟨0, 0⟩) (srcPoints.getD 3 ⟨0, 0⟩)
      (srcPoints.getD 4 ⟨0, 0⟩))

/-- Application of the returned affine matrix `[a, b, tx, c, d, ty]` to a
point: `x' = a·x + b·y + tx`, `y' = c·x + d·y + ty`. -/
noncomputable def applyAffine (m : List ℝ) (p : Point) : Point :=
  ⟨m.getD 0 0 * p.x + m.getD 1 0 * p.y + m.getD 2 0,
   m.getD 3 0 * p.x + m.getD 4 0 * p.y + m.getD 5 0⟩

/-- Image of a point under the similarity map with uniform scale `s`,
rotation `(c, d) = (cos θ, sin θ)` and translation `(tx, ty)`
(no reflection: the linear part is `s·R(θ)`). -/
noncomputable def similarityImage (s c d tx ty : ℝ) (p : Point) : Point :=
  ⟨s * (c * p.x - d * p.y) + tx, s * (d * p.x + c * p.y) + ty⟩

/-- Claim C6: `estimateAffineTransform` fails exactly when the source
list does not contain 5 points, and every 5-point input — including
degenerate ones — yields a 6-element matrix without throwing. -/
theorem estimateAffineTransform_error_iff (src : List Point) :
    ((∃ e, estimateAffineTransform src = Except.error e) ↔ src.length ≠ 5) ∧
      (src.length = 5 →
        ∃ m, estimateAffineTransform src = Except.ok m ∧ m.length = 6) := by
  constructor
  · constructor
    · rintro ⟨e, he⟩ h5
      unfold estimateAffineTransform at he
      rw [if_neg (by simp [h5])] at he
      exact Except.noConfusion he
    · intro h5
      refine ⟨"Alignment requires exactly 5 landmarks", ?_⟩
      unfold estimateAffineTransform
      rw [if_pos h5]
  · intro h5
    refine ⟨estimateBody (src.getD 0 ⟨0, 0⟩) (src.getD 1 ⟨0, 0⟩)
      (src.getD 2 ⟨0, 0⟩) (src.getD 3 ⟨0, 0⟩) (src.getD 4 ⟨0, 0⟩), ?_, rfl⟩
    unfold estimateAffineTransform
    rw [if_neg (by simp [h5])]

/-- Witness for the error-condition claim at the degenerate input of
five coincident points. -/
theorem estimateAffineTransform_error_iff_witness :
    ((List.replicate 5 (⟨1, 1⟩ : Point)).length = 5) ∧
      ∃ m, estimateAffineTransform (List.replicate 5 (⟨1, 1⟩ : Point)) =
          Except.ok m ∧ m.length = 6 :=
  ⟨by simp, (estimateAffineTransform_error_iff _).2 (by simp)⟩

end FaceMatcher

namespace FaceMatcher

/-- Squared spread of the reference layout about its centroid
(the accumulator `D` evaluated on the reference points themselves). -/
noncomputable def refSpread : ℝ :=
  sumD (refP 0) (refP 1) (refP 2) (refP 3) (refP 4)

/-- The reference layout is non-degenerate: its spread is positive. -/
theorem refSpread_pos : 0 < refSpread := by
  norm_num [refSpread, sumD, srcMeanX, srcMeanY, refP, referenceLandmarks,
    List.getD_cons_zero, List.getD_cons_succ]

/-- Accumulator `A` on a similarity image of the reference layout. -/
theorem sumA_similarity (s c d tx ty : ℝ) :
    sumA (similarityImage s c d tx ty (refP 0))
        (similarityImage s c d tx ty (refP 1))
        (similarityImage s c d tx ty (refP 2))
        (similarityImage s c d tx ty (refP 3))
        (similarityImage s c d tx ty (refP 4)) = s * c * refSpread := by
  simp only [sumA, srcMeanX, srcMeanY, dstMeanX, dstMeanY, refP,
    referenceLandmarks, similarityImage, refSpread, sumD,
    List.getD_cons_zero, List.getD_cons_succ]
  ring

/-- Accumulator `B` on a similarity image of the reference layout. -/
theorem sumB_similarity (s c d tx ty : ℝ) :
    sumB (similarityImage s c d tx ty (refP 0))
        (similarityImage s c d tx ty (refP 1))
        (similarityImage s c d tx ty (refP 2))
        (similarityImage s c d tx ty (refP 3))
        (similarityImage s c d tx ty (refP 4)) = -(s * d * refSpread) := by
  simp only [sumB, srcMeanX, srcMeanY, dstMeanX, dstMeanY, refP,
    referenceLandmarks, similarityImage, refSpread, sumD,
    List.getD_cons_zero, List.getD_cons_succ]
  ring

/-- Accumulator `D` on a similarity image of the reference layout, for a
rotation pair on the unit circle. -/
theorem sumD_similarity (s c d tx ty : ℝ) (hcd : c ^ 2 + d ^ 2 = 1) :
    sumD (similarityImage s c d tx ty (refP 0))
        (similarityImage s c d tx ty (refP 1))
        (similarityImage s c d tx ty (refP 2))
        (similarityImage s c d tx ty (refP 3))
        (similarityImage s c d tx ty (refP 4)) = s ^ 2 * refSpread := by
  have h : sumD (similarityImage s c d tx ty (refP 0))
      (similarityImage s c d tx ty (refP 1))
      (similarityImage s c d tx ty (refP 2))
      (similarityImage s c d tx ty (refP 3))
      (similarityImage s c d tx ty (refP 4))
      = s ^ 2 * (c ^ 2 + d ^ 2) * refSpread := by
    simp only [sumD, srcMeanX, srcMeanY, refP, referenceLandmarks,
      similarityImage, refSpread,
      List.getD_cons_zero, List.getD_cons_succ]
    ring
  rw [h, hcd, mul_one]

end FaceMatcher

namespace FaceMatcher

/-- Translation entry `tx` of the estimated matrix, in closed form. -/
theorem translate_component_x (s c d tx ty mx my : ℝ) (hs : s ≠ 0)
    (hcd : c ^ 2 + d ^ 2 = 1) :
    mx - (c / s * (s * (c * mx - d * my) + tx) +
        d / s * (s * (d * mx + c * my) + ty))
      = -(c * tx + d * ty) / s := by
  field_simp
  linear_combination (-(s * mx)) * hcd

/-- Translation entry `ty` of the estimated matrix, in closed form. -/
theorem translate_component_y (s c d tx ty mx my : ℝ) (hs : s ≠ 0)
    (hcd : c ^ 2 + d ^ 2 = 1) :
    my - (-(d / s) * (s * (c * mx - d * my) + tx) +
        c / s * (s * (d * mx + c * my) + ty))
      = (d * tx - c * ty) / s := by
  field_simp
  linear_combination (-(s ^ 3 * my)) * hcd

/-- Entry `scale·cos` of the estimated matrix, in closed form. -/
theorem scaleCos_eval (s Q c : ℝ) (hs : s ≠ 0) (hQ : Q ≠ 0) :
    s * Q / (s ^ 2 * Q) * (s * c * Q / (s * Q)) = c / s := by
  field_simp
  ring

/-- Entry `-scale·sin` of the estimated matrix, in closed form. -/
theorem negScaleSin_eval (s Q d : ℝ) (hs : s ≠ 0) (hQ : Q ≠ 0) :
    -(s * Q / (s ^ 2 * Q)) * (-(s * d * Q) / (s * Q)) = d / s := by
  field_simp
  ring

/-- Entry `scale·sin` of the estimated matrix, in closed form. -/
theorem scaleSin_eval (s Q d : ℝ) (hs : s ≠ 0) (hQ : Q ≠ 0) :
    s * Q / (s ^ 2 * Q) * (-(s * d * Q) / (s * Q)) = -(d / s) := by
  field_simp
  ring

/-- Inverting the similarity on its x-coordinate recovers the original. -/
theorem roundtrip_x (s c d tx ty x y : ℝ) (hs : s ≠ 0)
    (hcd : c ^ 2 + d ^ 2 = 1) :
    c / s * (s * (c * x - d * y) + tx) + d / s * (s * (d * x + c * y) + ty) +
      -(c * tx + d * ty) / s = x := by
  field_simp
  linear_combination (s * x) * hcd

/-- Inverting the similarity on its y-coordinate recovers the original. -/
theorem roundtrip_y (s c d tx ty x y : ℝ) (hs : s ≠ 0)
    (hcd : c ^ 2 + d ^ 2 = 1) :
    -(d / s) * (s * (c * x - d * y) + tx) + c / s * (s * (d * x + c * y) + ty) +
      (d * tx - c * ty) / s = y := by
  field_simp
  linear_combination (s ^ 3 * y) * hcd

/-- Source centroid x of a similarity image of the reference layout. -/
theorem srcMeanX_similarity (s c d tx ty : ℝ) :
    srcMeanX (similarityImage s c d tx ty (refP 0))
        (similarityImage s c d tx ty (refP 1))
        (similarityImage s c d tx ty (refP 2))
        (similarityImage s c d tx ty (refP 3))
        (similarityImage s c d tx ty (refP 4))
      = s * (c * dstMeanX - d * dstMeanY) + tx := by
  simp only [srcMeanX, similarityImage, refP, referenceLandmarks, dstMeanX,
    dstMeanY, List.getD_cons_zero, List.getD_cons_succ]
  ring

/-- Source centroid y of a similarity image of the reference layout. -/
theorem srcMeanY_similarity (s c d tx ty : ℝ) :
    srcMeanY (similarityImage s c d tx ty (refP 0))
        (similarityImage s c d tx ty (refP 1))
        (similarityImage s c d tx ty (refP 2))
        (similarityImage s c d tx ty (refP 3))
        (similarityImage s c d tx ty (refP 4))
      = s * (d * dstMeanX + c * dstMeanY) + ty := by
  simp only [srcMeanY, similarityImage, refP, referenceLandmarks, dstMeanX,
    dstMeanY, List.getD_cons_zero, List.getD_cons_succ]
  ring

/-- Closed form of `estimateBody` on a similarity image of the reference
layout: the estimated matrix is exactly the inverse similarity
`(1/s)·R(-θ)` with the translation sending the source centroid back onto
the reference centroid. -/
theorem estimateBody_similarity (s c d tx ty : ℝ) (hs : 0 < s)
    (hcd : c ^ 2 + d ^ 2 = 1) :
    estimateBody (similarityImage s c d tx ty (refP 0))
        (similarityImage s c d tx ty (refP 1))
        (similarityImage s c d tx ty (refP 2))
        (similarityImage s c d tx ty (refP 3))
        (similarityImage s c d tx ty (refP 4)) =
      [c / s, d / s, -(c * tx + d * ty) / s,
        -(d / s), c / s, (d * tx - c * ty) / s] := by
  have hsne : s ≠ 0 := ne_of_gt hs
  have hQ : refSpread ≠ 0 := ne_of_gt refSpread_pos
  have hA := sumA_similarity s c d tx ty
  have hB := sumB_similarity s c d tx ty
  have hD := sumD_similarity s c d tx ty hcd
  have hK : Real.sqrt
      (sumA (similarityImage s c d tx ty (refP 0))
          (similarityImage s c d tx ty (refP 1))
          (similarityImage s c d tx ty (refP 2))
          (similarityImage s c d tx ty (refP 3))
          (similarityImage s c d tx ty (refP 4)) *
        sumA (similarityImage s c d tx ty (refP 0))
          (similarityImage s c d tx ty (refP 1))
          (similarityImage s c d tx ty (refP 2))
          (similarityImage s c d tx ty (refP 3))
          (similarityImage s c d tx ty (refP 4)) +
        sumB (similarityImage s c d tx ty (refP 0))
          (similarityImage s c d tx ty (refP 1))
          (similarityImage s c d tx ty (refP 2))
          (similarityImage s c d tx ty (refP 3))
          (similarityImage s c d tx ty (refP 4)) *
        sumB (similarityImage s c d tx ty (refP 0))
          (similarityImage s c d tx ty (refP 1))
          (similarityImage s c d tx ty (refP 2))
          (similarityImage s c d tx ty (refP 3))
          (similarityImage s c d tx ty (refP 4))) = s * refSpread := by
    rw [hA, hB]
    have h1 : s * c * refSpread * (s * c * refSpread) +
        -(s * d * refSpread) * -(s * d * refSpread)
        = (s * refSpread) ^ 2 * (c ^ 2 + d ^ 2) := by ring
    rw [h1, hcd, mul_one]
    exact Real.sqrt_sq (mul_nonneg hs.le refSpread_pos.le)
  simp only [estimateBody]
  rw [hK, hA, hB, hD]
  rw [scaleCos_eval s refSpread c hsne hQ,
    negScaleSin_eval s refSpread d hsne hQ,
    scaleSin_eval s refSpread d hsne hQ,
    srcMeanX_similarity s c d tx ty,
    srcMeanY_similarity s c d tx ty,
    translate_component_x s c d tx ty dstMeanX dstMeanY hsne hcd,
    translate_component_y s c d tx ty dstMeanX dstMeanY hsne hcd]

end FaceMatcher

namespace FaceMatcher

/-- Claim C5: for any positive uniform scale `s`, rotation `(c, d)` on
the unit circle (no reflection) and translation `(tx, ty)`, feeding the
similarity image of the Reference Layout to `estimateAffineTransform`
succeeds and the returned transform maps those source points back onto
the Reference Layout exactly (the floating-point tolerance of the claim
is exact equality in the real-arithmetic model). -/
theorem estimateAffineTransform_roundtrip (s c d tx ty : ℝ) (hs : 0 < s)
    (hcd : c ^ 2 + d ^ 2 = 1) :
    ∃ m, estimateAffineTransform
          (referenceLandmarks.map (similarityImage s c d tx ty)) =
        Except.ok m ∧
      (referenceLandmarks.map (similarityImage s c d tx ty)).map
          (applyAffine m) = referenceLandmarks := by
  have hsne : s ≠ 0 := ne_of_gt hs
  have hmap : referenceLandmarks.map (similarityImage s c d tx ty) =
      [similarityImage s c d tx ty (refP 0),
       similarityImage s c d tx ty (refP 1),
       similarityImage s c d tx ty (refP 2),
       similarityImage s c d tx ty (refP 3),
       similarityImage s c d tx ty (refP 4)] := by
    simp [referenceLandmarks, refP]
  refine ⟨[c / s, d / s, -(c * tx + d * ty) / s,
      -(d / s), c / s, (d * tx - c * ty) / s], ?_, ?_⟩
  · rw [hmap]
    unfold estimateAffineTransform
    rw [if_neg (by simp)]
    simp only [List.getD_cons_zero, List.getD_cons_succ]
    rw [estimateBody_similarity s c d tx ty hs hcd]
  · rw [hmap]
    simp only [List.map_cons, List.map_nil, applyAffine,
      List.getD_cons_zero, List.getD_cons_succ, similarityImage, refP,
      referenceLandmarks, List.cons.injEq, and_true, Point.mk.injEq]
    refine ⟨⟨?_, ?_⟩, ⟨?_, ?_⟩, ⟨?_, ?_⟩, ⟨?_, ?_⟩, ⟨?_, ?_⟩⟩
    · exact roundtrip_x s c d tx ty 38.2946 51.6963 hsne hcd
    · exact roundtrip_y s c d tx ty 38.2946 51.6963 hsne hcd
    · exact roundtrip_x s c d tx ty 73.5318 51.5014 hsne hcd
    · exact roundtrip_y s c d tx ty 73.5318 51.5014 hsne hcd
    · exact roundtrip_x s c d tx ty 56.0252 71.7366 hsne hcd
    · exact roundtrip_y s c d tx ty 56.0252 71.7366 hsne hcd
    · exact roundtrip_x s c d tx ty 41.5493 92.3655 hsne hcd
    · exact roundtrip_y s c d tx ty 41.5493 92.3655 hsne hcd
    · exact roundtrip_x s c d tx ty 70.7299 92.2041 hsne hcd
    · exact roundtrip_y s c d tx ty 70.7299 92.2041 hsne hcd

/-- Witness for the round-trip law at scale 2, identity rotation and
translation (10, 20). -/
theorem estimateAffineTransform_roundtrip_witness :
    ((0 : ℝ) < 2 ∧ (1 : ℝ) ^ 2 + (0 : ℝ) ^ 2 = 1) ∧
      ∃ m, estimateAffineTransform
            (referenceLandmarks.map (similarityImage 2 1 0 10 20)) =
          Except.ok m ∧
        (referenceLandmarks.map (similarityImage 2 1 0 10 20)).map
            (applyAffine m) = referenceLandmarks :=
  ⟨⟨by norm_num, by norm_num⟩,
    estimateAffineTransform_roundtrip 2 1 0 10 20 (by norm_num) (by norm_num)⟩

end FaceMatcher

namespace FaceMatcher

/-- Filtering a constant list keeps everything or nothing. -/
theorem length_filter_replicate {α : Type} (p : α → Bool) (a : α) :
    ∀ n : ℕ, ((List.replicate n a).filter p).length = if p a then n else 0 := by
  intro n
  induction n with
  | zero => simp
  | succ n ih =>
    rw [List.replicate_succ, List.filter_cons]
    by_cases h : p a
    · simp [h, ih]
    · simp [h, ih]

/-- R, G, B samples of one RGBA pixel of the 112×112 input buffer
(`ImageData` samples are integers in 0..255; the alpha sample is never
read by the preprocessing in `runInference`). -/
structure RGB where
  r : ℕ
  g : ℕ
  b : ℕ

/-- Exact luma `0.299·r + 0.587·g + 0.114·b` (the float `y` computed at
lines 72 and 98 of `face-processor.worker.ts`). -/
def lumaQ (p : RGB) : ℚ := (299 * p.r + 587 * p.g + 114 * p.b) / 1000

/-- JavaScript `Math.round` on a finite value: round half toward
positive infinity. -/
def jsRound (q : ℚ) : ℤ := ⌊q + 1 / 2⌋

/-- Luma bin `Math.round(0.299r + 0.587g + 0.114b)` used both to build
the histogram and to index the lookup table. -/
def lumaIdx (p : RGB) : ℤ := jsRound (lumaQ p)

/-- `totalPixels = width * height = 112 * 112` of `runInference`. -/
def totalPixels : ℕ := 112 * 112

/-- Step 1 of the equalization: the luma histogram of the image (the
image is the list of the buffer's 12544 RGB triples). -/
def histogram (img : List RGB) (l : ℤ) : ℕ :=
  (img.filter (fun p => lumaIdx p = l)).length

/-- Step 2: cumulative distribution `cdf[l] = Σ_{i ≤ l} histogram[i]`. -/
def cdf (img : List RGB) (l : ℕ) : ℕ :=
  ∑ i in Finset.range (l + 1), histogram img i

/-- Step 3a: `cdfMin = cdf.find(val => val > 0) || 0`, the first positive
entry of the cdf array. -/
def cdfMin (img : List RGB) : ℕ :=
  (((List.range 256).map (cdf img)).find? (fun v => 0 < v)).getD 0

/-- JavaScript `ToUint8` of an integer value: wrap into `0..255` as a
`Uint8Array` element store does. -/
def toUint8 (z : ℤ) : ℕ := ((z % 256 + 256) % 256).toNat

/-- Step 3b: lookup-table entry
`map[l] = Math.round(((cdf[l] − cdfMin) / (totalPixels − cdfMin)) · 255)`
stored into a `Uint8Array`.  When `totalPixels = cdfMin` (all pixels in
one luma bin) the JavaScript division is `0/0 = NaN` at and above the
populated bin and `negative/0 = -Infinity` below it; `Math.round`
preserves both and the `Uint8Array` store coerces both to `0`, which the
guard models. -/
def lutEntry (img : List RGB) (l : ℕ) : ℕ :=
  if totalPixels = cdfMin img then 0
  else toUint8 (jsRound ((((cdf img l : ℚ) - cdfMin img) /
    ((totalPixels : ℚ) - cdfMin img)) * 255))

/-- The clamp `Math.min(255, Math.max(0, v))` of step 4. -/
def clamp255 (q : ℚ) : ℚ := min 255 (max 0 q)

/-- Step 4 of the equalization for one pixel, before the optional BGR
swap and the `(v − 127.5)/127.5` normalization:
`newY = map[Math.round(y)]`, `ratio = (y > 0) ? newY/y : 1`, and each of
R, G, B is scaled by `ratio` and clamped to `[0, 255]`. -/
def eqPixel (img : List RGB) (p : RGB) : ℚ × ℚ × ℚ :=
  let y := lumaQ p
  let newY : ℚ := lutEntry img (lumaIdx p).toNat
  let ratio := if 0 < y then newY / y else 1
  (clamp255 (p.r * ratio), clamp255 (p.g * ratio), clamp255 (p.b * ratio))

end FaceMatcher

namespace FaceMatcher

/-- Luma bin of the mid-gray pixel is 128. -/
theorem lumaIdx_uniform128 : lumaIdx ⟨128, 128, 128⟩ = 128 := by
  have hq : lumaQ ⟨128, 128, 128⟩ + 1 / 2 = 257 / 2 := by
    norm_num [lumaQ]
  rw [lumaIdx, jsRound, hq, Int.floor_eq_iff]
  constructor <;> norm_num

/-- Histogram of the uniform mid-gray image: all mass in bin 128. -/
theorem histogram_uniform128 (l : ℤ) :
    histogram (List.replicate totalPixels ⟨128, 128, 128⟩) l
      = if (128 : ℤ) = l then totalPixels else 0 := by
  rw [histogram, length_filter_replicate]
  simp only [lumaIdx_uniform128]
  by_cases h : (128 : ℤ) = l
  · simp [h]
  · simp [h]

/-- Cumulative distribution of the uniform mid-gray image: a step at
bin 128. -/
theorem cdf_uniform128 (l : ℕ) :
    cdf (List.replicate totalPixels ⟨128, 128, 128⟩) l
      = if 128 ≤ l then totalPixels else 0 := by
  rw [cdf]
  simp only [histogram_uniform128]
  by_cases h : 128 ≤ l
  · rw [if_pos h]
    rw [Finset.sum_eq_single_of_mem 128 (Finset.mem_range.mpr (by omega))]
    · norm_num
    · intro i hi hne
      rw [if_neg]
      exact_mod_cast Ne.symm hne
  · rw [if_neg h]
    apply Finset.sum_eq_zero
    intro i hi
    rw [if_neg]
    intro hc
    have hi128 : i = 128 := by exact_mod_cast hc.symm
    have := Finset.mem_range.mp hi
    omega

/-- On the uniform mid-gray image the first positive cdf entry is the
whole pixel count, so `totalPixels - cdfMin = 0`. -/
theorem cdfMin_uniform128 :
    cdfMin (List.replicate totalPixels ⟨128, 128, 128⟩) = totalPixels := by
  have hfun : cdf (List.replicate totalPixels ⟨128, 128, 128⟩)
      = fun l => if 128 ≤ l then totalPixels else 0 := funext cdf_uniform128
  rw [cdfMin, hfun]
  decide

/-- Claim C3 exhibit (code bug): on the uniform 112×112 image whose
every pixel is RGB (128, 128, 128), the equalization stage of
`runInference` does not leave the pixels unchanged: `totalPixels − cdfMin`
is zero, the NaN lookup-table entry is stored as 0 by the `Uint8Array`,
the per-pixel ratio is 0 — not 1 — and every channel sample is zeroed,
so the produced tensor differs from the one obtained by skipping
equalization. -/
theorem histEq_uniform_zeroes :
    eqPixel (List.replicate totalPixels ⟨128, 128, 128⟩) ⟨128, 128, 128⟩
        = (0, 0, 0) ∧
      eqPixel (List.replicate totalPixels ⟨128, 128, 128⟩) ⟨128, 128, 128⟩
        ≠ ((128 : ℚ), (128 : ℚ), (128 : ℚ)) := by
  have hlut : lutEntry (List.replicate totalPixels ⟨128, 128, 128⟩) 128 = 0 := by
    rw [lutEntry, if_pos cdfMin_uniform128.symm]
  have h : eqPixel (List.replicate totalPixels ⟨128, 128, 128⟩) ⟨128, 128, 128⟩
      = (0, 0, 0) := by
    simp only [eqPixel, lumaIdx_uniform128,
      show (128 : ℤ).toNat = 128 from rfl, hlut]
    norm_num [lumaQ, clamp255]
  refine ⟨h, ?_⟩
  rw [h]
  simp only [ne_eq, Prod.mk.injEq]
  norm_num

end FaceMatcher
